import Mathlib

/-!
Shallow embedding of the authorization core of FlaskStarter
(`app/models/user.py`, `app/models/role.py`, `app/models/permission.py`,
`app/middleware/permissions.py`, `app/routes/roles.py`).

The source carries a wiring defect that dominates everything below.  The
only declared User-Role association table is `model_has_roles`
(`permission.py`, line 36), yet both relationships that use it —
`User.roles` (`user.py`, line 21) and `Role.users` (`role.py`, line 18) —
declare `secondary='user_has_roles'`.  SQLAlchemy resolves a string
`secondary` against the declared tables, finds no `user_has_roles`, and
mapper configuration fails; the failure is registry-wide, so *every* ORM
operation — including the correctly wired Role-Permission side, session
lookups, and the first commit of any entity — raises
`InvalidRequestError`.  The repository's own fixtures show the intended
name: `conftest.py`, line 73, deletes from `user_has_roles`, and the
model tests exercise `has_role`, `get_permissions` and the rest as
working operations.  `mapperConfigured` and `ormRun` below embed this
configuration step and its failure; the `..._staged` wrappers give each
source operation the outcome the staged program actually has.

The pure functions (`rolesOf`, `permissionsOf`, the `User.has_*` family,
the mutations) embed the data semantics the queries have under a
configured mapper — i.e. under the wiring the spec and the tests assume,
where the relationship's secondary resolves to the one declared
association table.  They state what each operation is *intended* to
compute; the staged program reaches none of them.

The persistence backend is MySQL with the `utf8mb4` character set
(`config.py`), whose default collation compares strings
case-insensitively; the model tests
(`tests/models/user_test.py::test_has_role`) rely on
`filter_by(name=...)` matching case-insensitively.  Name equality in SQL
lookups is therefore embedded as equality of case-folded strings.
-/

namespace FlaskStarter

structure Permission where
  id : Nat
  name : String
deriving DecidableEq, Repr

structure Role where
  id : Nat
  name : String
deriving DecidableEq, Repr

structure User where
  id : Nat
  name : String
  email : String
deriving DecidableEq, Repr

/-- The persisted state: entity tables plus the two join tables declared
in `permission.py`, lines 36-46.  `userRoles` holds (user id, role id)
pairs — the declared table `model_has_roles`, which the relationships
misname `user_has_roles` (see the header); `rolePerms` holds
(role id, permission id) pairs (`role_has_permissions`).  Both join
tables carry `ON DELETE CASCADE` on each foreign key. -/
structure DB where
  users : List User
  roles : List Role
  permissions : List Permission
  userRoles : List (Nat × Nat)
  rolePerms : List (Nat × Nat)
deriving DecidableEq, Repr

/-- ASCII case-folded code point, the common behaviour of Python's
`str.lower()` and MySQL's case-insensitive collation on the ASCII names
this application uses. -/
def lowerCode (c : Char) : Nat :=
  if 65 ≤ c.toNat ∧ c.toNat ≤ 90 then c.toNat + 32 else c.toNat

/-- Case-folding key of a name: the list of case-folded code points. -/
def lowerKey (s : String) : List Nat :=
  s.data.map lowerCode

/-- MySQL utf8mb4 case-insensitive string equality, used by every
`filter_by(name=...)` lookup in the source. -/
def nameMatch (a b : String) : Bool :=
  lowerKey a == lowerKey b

/-- `user.roles` under a configured mapper: the Role rows joined to `u`
through the User-Role association table.  In the staged source this
relationship names the undeclared table `user_has_roles` and accessing it
raises instead of producing rows (see `mapperConfigured`); this function
is the join the spec and the tests assume. -/
def rolesOf (db : DB) (u : User) : List Role :=
  db.roles.filter (fun r => db.userRoles.contains (u.id, r.id))

/-- `role.permissions` under a configured mapper: the Permission rows
joined to `r` through the Role-Permission association table.  Though this
side is wired to a declared table, the staged program still raises on
access because mapper configuration fails registry-wide (see
`mapperConfigured`). -/
def permissionsOf (db : DB) (r : Role) : List Permission :=
  db.permissions.filter (fun p => db.rolePerms.contains (r.id, p.id))

/-- `permission.roles`: the Role rows joined to `p` through the
Role-Permission association table. -/
def rolesOfPermission (db : DB) (p : Permission) : List Role :=
  db.roles.filter (fun r => db.rolePerms.contains (r.id, p.id))

/-- `User.has_role` (user.py 35-37): `self.roles.filter_by(name=role_name)`
followed by `first() is not None`. -/
def User.has_role (db : DB) (u : User) (role_name : String) : Bool :=
  (rolesOf db u).any (fun r => nameMatch r.name role_name)

/-- `User.has_any_role` (user.py 39-41): filters the user's roles on
`lower(name) IN [r.lower() for r in role_names]`; an empty `IN` list is
rendered by SQLAlchemy as a false predicate. -/
def User.has_any_role (db : DB) (u : User) (role_names : List String) : Bool :=
  (rolesOf db u).any (fun r => (role_names.map lowerKey).contains (lowerKey r.name))

/-- `User.has_all_roles` (user.py 43-46): builds the set of lowercased
role names, then checks every requested name lowercased against it. -/
def User.has_all_roles (db : DB) (u : User) (role_names : List String) : Bool :=
  role_names.all (fun n => ((rolesOf db u).map (fun r => lowerKey r.name)).contains (lowerKey n))

/-- `Role.has_permission` (role.py 23-25):
`self.permissions.filter_by(name=permission_name).first() is not None`. -/
def Role.has_permission (db : DB) (r : Role) (permission_name : String) : Bool :=
  (permissionsOf db r).any (fun p => nameMatch p.name permission_name)

/-- `User.has_permission` (user.py 58-63): loops over the user's roles and
returns true at the first role for which `role.has_permission` holds. -/
def User.has_permission (db : DB) (u : User) (permission_name : String) : Bool :=
  (rolesOf db u).any (fun r => Role.has_permission db r permission_name)

/-- `User.has_any_permission` (user.py 65-72): lowercases the requested
names, then scans each role's permissions for a lowercased name hit. -/
def User.has_any_permission (db : DB) (u : User) (permission_names : List String) : Bool :=
  (rolesOf db u).any (fun r =>
    (permissionsOf db r).any (fun p =>
      (permission_names.map lowerKey).contains (lowerKey p.name)))

/-- The dedup-by-id loop body of `User.get_permissions` (user.py 82-89):
walk the permissions in visit order, keeping a `seen_ids` set and skipping
any permission whose id was already seen. -/
def dedupById : List Permission → List Nat → List Permission
  | [], _ => []
  | p :: ps, seen =>
    if p.id ∈ seen then dedupById ps seen
    else p :: dedupById ps (p.id :: seen)

/-- `User.get_permissions` (user.py 80-89): iterate over every role, then
over that role's permissions, appending each permission whose id has not
been seen yet. -/
def User.get_permissions (db : DB) (u : User) : List Permission :=
  dedupById (((rolesOf db u).map (fun r => permissionsOf db r)).flatten) []

/-- `User.has_all_permissions` (user.py 74-78): collects the lowercased
names of `get_permissions` and checks every requested name against them. -/
def User.has_all_permissions (db : DB) (u : User) (permission_names : List String) : Bool :=
  let user_permission_names := (User.get_permissions db u).map (fun p => lowerKey p.name)
  permission_names.all (fun n => user_permission_names.contains (lowerKey n))

/-- `User.assign_role` (user.py 48-51): append the (user, role) pair only
when `has_role(role.name)` is false. -/
def User.assign_role (db : DB) (u : User) (r : Role) : DB :=
  if User.has_role db u r.name then db
  else { db with userRoles := db.userRoles ++ [(u.id, r.id)] }

/-- `Role.give_permission_to` (role.py 27-30): append the
(role, permission) pair only when `has_permission(permission.name)` is
false. -/
def Role.give_permission_to (db : DB) (r : Role) (p : Permission) : DB :=
  if Role.has_permission db r p.name then db
  else { db with rolePerms := db.rolePerms ++ [(r.id, p.id)] }

/-- `Role.sync_permissions` (role.py 37-43): clear every existing
permission association of `r`, then append one association per provided
permission. -/
def Role.sync_permissions (db : DB) (r : Role) (ps : List Permission) : DB :=
  { db with rolePerms :=
      db.rolePerms.filter (fun pr => pr.1 != r.id) ++ ps.map (fun p => (r.id, p.id)) }

/-- `roles.delete` (routes/roles.py 124-137) with the `ON DELETE CASCADE`
clauses of both association tables (permission.py 36-46): the role row is
removed, together with every association pair referencing it from either
table; users and permissions are untouched. -/
def deleteRole (db : DB) (r : Role) : DB :=
  { db with
    roles := db.roles.filter (fun r2 => r2.id != r.id),
    userRoles := db.userRoles.filter (fun pr => pr.2 != r.id),
    rolePerms := db.rolePerms.filter (fun pr => pr.1 != r.id) }

/-- Outcome of a gated request: `abort(401)`, `abort(403)`, or the wrapped
view's result. -/
inductive GateResult (α : Type) where
  | unauthenticated
  | forbidden
  | ok (a : α)
deriving Repr

/-- `permission_required` (middleware/permissions.py 20-31) under a
configured mapper: abort 401 when unauthenticated, else abort 403 when
`has_any_permission` fails, else run the wrapped view.  The view is
modelled as a state transformer so that "the wrapped operation is not
invoked" is visible as an unchanged state.  `permission_required_staged`
below is the staged program's behaviour. -/
def permission_required {σ α : Type} (db : DB) (permission_names : List String)
    (is_authenticated : Bool) (u : User) (f : σ → σ × α) (s : σ) : σ × GateResult α :=
  if !is_authenticated then (s, GateResult.unauthenticated)
  else if !(User.has_any_permission db u permission_names) then (s, GateResult.forbidden)
  else
    let r := f s
    (r.1, GateResult.ok r.2)

/-- `role_required` (middleware/permissions.py 6-17) under a configured
mapper: abort 401 when unauthenticated, else abort 403 when
`has_any_role` fails, else run the wrapped view. -/
def role_required {σ α : Type} (db : DB) (role_names : List String)
    (is_authenticated : Bool) (u : User) (f : σ → σ × α) (s : σ) : σ × GateResult α :=
  if !is_authenticated then (s, GateResult.unauthenticated)
  else if !(User.has_any_role db u role_names) then (s, GateResult.forbidden)
  else
    let r := f s
    (r.1, GateResult.ok r.2)

/-! The staged program's mapper configuration.  SQLAlchemy resolves each
relationship's string `secondary` against the declared table names; one
unresolvable name fails configuration for the whole registry, after which
every ORM operation raises `InvalidRequestError`. -/

/-- The table names the staged source declares: the three entity tables
and the two association tables of `permission.py`, lines 36-46. -/
def declaredTableNames : List String :=
  ["users", "roles", "permissions", "model_has_roles", "role_has_permissions"]

/-- The `secondary` name both User-Role relationships declare
(`user.py`, line 21; `role.py`, line 18). -/
def userRolesSecondaryName : String :=
  "user_has_roles"

/-- The `secondary` name of the Role-Permission relationships
(`role.py`, line 20; `permission.py`, line 18). -/
def rolePermsSecondaryName : String :=
  "role_has_permissions"

/-- Mapper configuration succeeds iff every relationship's `secondary`
resolves against the declared tables. -/
def mapperConfigured : Bool :=
  declaredTableNames.contains userRolesSecondaryName &&
    declaredTableNames.contains rolePermsSecondaryName

/-- Outcome of an operation in the staged program: `raised` is the
`InvalidRequestError` escaping from failed mapper configuration. -/
inductive OrmOutcome (α : Type) where
  | raised
  | result (a : α)
deriving DecidableEq, Repr

/-- Run one ORM operation in the staged program: its intended value when
the mapper configures, the configuration error otherwise. -/
def ormRun {α : Type} (a : α) : OrmOutcome α :=
  if mapperConfigured then OrmOutcome.result a else OrmOutcome.raised

/-- In the staged source, mapper configuration fails: `user_has_roles` is
declared nowhere. -/
theorem mapper_configuration_fails : mapperConfigured = false := by
  decide

/-! Each source operation as the staged program runs it: the raise from
mapper configuration happens on the first relationship access or session
lookup, before any of the operation's own logic. -/

def User.has_role_staged (db : DB) (u : User) (n : String) : OrmOutcome Bool :=
  ormRun (User.has_role db u n)

def User.has_any_role_staged (db : DB) (u : User) (ns : List String) : OrmOutcome Bool :=
  ormRun (User.has_any_role db u ns)

def User.has_all_roles_staged (db : DB) (u : User) (ns : List String) : OrmOutcome Bool :=
  ormRun (User.has_all_roles db u ns)

def User.has_permission_staged (db : DB) (u : User) (n : String) : OrmOutcome Bool :=
  ormRun (User.has_permission db u n)

def User.has_any_permission_staged (db : DB) (u : User) (ns : List String) :
    OrmOutcome Bool :=
  ormRun (User.has_any_permission db u ns)

def User.has_all_permissions_staged (db : DB) (u : User) (ns : List String) :
    OrmOutcome Bool :=
  ormRun (User.has_all_permissions db u ns)

def User.get_permissions_staged (db : DB) (u : User) : OrmOutcome (List Permission) :=
  ormRun (User.get_permissions db u)

def User.assign_role_staged (db : DB) (u : User) (r : Role) : OrmOutcome DB :=
  ormRun (User.assign_role db u r)

def Role.give_permission_to_staged (db : DB) (r : Role) (p : Permission) : OrmOutcome DB :=
  ormRun (Role.give_permission_to db r p)

def Role.sync_permissions_staged (db : DB) (r : Role) (ps : List Permission) :
    OrmOutcome DB :=
  ormRun (Role.sync_permissions db r ps)

/-- `roles.delete` as staged: `db.session.get(Role, id)` already triggers
the failing mapper configuration, so the deletion never executes. -/
def deleteRole_staged (db : DB) (r : Role) : OrmOutcome DB :=
  ormRun (deleteRole db r)

/-- `permission_required` as the staged program runs it: the 401 check
reads no database state, so it fires before anything can raise; the
authenticated path evaluates the capability through the broken mapper. -/
def permission_required_staged {σ α : Type} (db : DB) (permission_names : List String)
    (is_authenticated : Bool) (u : User) (f : σ → σ × α) (s : σ) :
    OrmOutcome (σ × GateResult α) :=
  if !is_authenticated then OrmOutcome.result (s, GateResult.unauthenticated)
  else
    match ormRun (User.has_any_permission db u permission_names) with
    | OrmOutcome.raised => OrmOutcome.raised
    | OrmOutcome.result b =>
      if !b then OrmOutcome.result (s, GateResult.forbidden)
      else
        let r := f s
        OrmOutcome.result (r.1, GateResult.ok r.2)

/-- `role_required` as the staged program runs it. -/
def role_required_staged {σ α : Type} (db : DB) (role_names : List String)
    (is_authenticated : Bool) (u : User) (f : σ → σ × α) (s : σ) :
    OrmOutcome (σ × GateResult α) :=
  if !is_authenticated then OrmOutcome.result (s, GateResult.unauthenticated)
  else
    match ormRun (User.has_any_role db u role_names) with
    | OrmOutcome.raised => OrmOutcome.raised
    | OrmOutcome.result b =>
      if !b then OrmOutcome.result (s, GateResult.forbidden)
      else
        let r := f s
        OrmOutcome.result (r.1, GateResult.ok r.2)

/-! Sample data for witnesses, mirroring the seed data of `init_db.py` and
the fixtures of `tests/conftest.py`. -/

def permViewUsers : Permission := ⟨1, "view users"⟩

def permEditUsers : Permission := ⟨2, "edit users"⟩

def roleAdmin : Role := ⟨1, "Admin"⟩

def roleEditor : Role := ⟨2, "Editor"⟩

def alice : User := ⟨1, "Alice", "alice@example.com"⟩

def sampleDB : DB :=
  ⟨[alice], [roleAdmin, roleEditor], [permViewUsers, permEditUsers],
   [(1, 1), (1, 2)], [(1, 1), (2, 1), (2, 2)]⟩

/-! Helper lemmas shared by the claim theorems. -/

theorem nameMatch_refl (s : String) : nameMatch s s = true := by
  simp [nameMatch]

theorem mem_of_mem_permissionsOf {db : DB} {r : Role} {p : Permission}
    (h : p ∈ permissionsOf db r) : p ∈ db.permissions :=
  List.mem_of_mem_filter h

/-- Primary-key uniqueness: two rows of the permissions table with the same
id are the same row. -/
theorem perm_id_inj {db : DB} (hids : (db.permissions.map Permission.id).Nodup)
    {a b : Permission} (ha : a ∈ db.permissions) (hb : b ∈ db.permissions)
    (h : a.id = b.id) : a = b :=
  List.inj_on_of_nodup_map hids ha hb h

theorem dedupById_subset (l : List Permission) :
    ∀ (seen : List Nat) (p : Permission), p ∈ dedupById l seen → p ∈ l ∧ p.id ∉ seen := by
  induction l with
  | nil => intro seen p h; simp [dedupById] at h
  | cons q qs ih =>
    intro seen p h
    rw [dedupById] at h
    by_cases hq : q.id ∈ seen
    · rw [if_pos hq] at h
      rcases ih seen p h with ⟨h1, h2⟩
      exact ⟨List.mem_cons_of_mem _ h1, h2⟩
    · rw [if_neg hq] at h
      rcases List.mem_cons.mp h with rfl | h2
      · exact ⟨List.mem_cons_self _ _, hq⟩
      · rcases ih _ p h2 with ⟨h3, h4⟩
        exact ⟨List.mem_cons_of_mem _ h3, fun hc => h4 (List.mem_cons_of_mem _ hc)⟩

theorem dedupById_mem (l : List Permission) :
    ∀ (seen : List Nat) (p : Permission),
      (∀ a ∈ l, ∀ b ∈ l, a.id = b.id → a = b) →
      p ∈ l → p.id ∉ seen → p ∈ dedupById l seen := by
  induction l with
  | nil => intro seen p _ h _; simp at h
  | cons q qs ih =>
    intro seen p hinj hp hseen
    have hinj' : ∀ a ∈ qs, ∀ b ∈ qs, a.id = b.id → a = b := fun a ha b hb =>
      hinj a (List.mem_cons_of_mem _ ha) b (List.mem_cons_of_mem _ hb)
    rw [dedupById]
    by_cases hq : q.id ∈ seen
    · rw [if_pos hq]
      rcases List.mem_cons.mp hp with rfl | h2
      · exact absurd hq hseen
      · exact ih seen p hinj' h2 hseen
    · rw [if_neg hq]
      by_cases hpq : p.id = q.id
      · have hpq2 : p = q := hinj p hp q (List.mem_cons_self _ _) hpq
        rw [hpq2]
        exact List.mem_cons_self _ _
      · have h2 : p ∈ qs := by
          rcases List.mem_cons.mp hp with rfl | h2
          · exact absurd rfl hpq
          · exact h2
        apply List.mem_cons_of_mem
        apply ih (q.id :: seen) p hinj' h2
        intro hc
        rcases List.mem_cons.mp hc with he | hc2
        · exact hpq he
        · exact hseen hc2

theorem dedupById_nodup (l : List Permission) :
    ∀ seen : List Nat, ((dedupById l seen).map Permission.id).Nodup := by
  induction l with
  | nil => intro seen; simp [dedupById]
  | cons q qs ih =>
    intro seen
    rw [dedupById]
    by_cases hq : q.id ∈ seen
    · rw [if_pos hq]; exact ih seen
    · rw [if_neg hq]
      simp only [List.map_cons, List.nodup_cons]
      refine ⟨?_, ih (q.id :: seen)⟩
      intro hc
      rcases List.mem_map.mp hc with ⟨p, hp, hpid⟩
      have h2 := (dedupById_subset qs (q.id :: seen) p hp).2
      exact h2 (by rw [hpid]; exact List.mem_cons_self _ _)

theorem mem_flatperms {db : DB} {u : User} {p : Permission} :
    p ∈ ((rolesOf db u).map (fun r => permissionsOf db r)).flatten ↔
      ∃ r ∈ rolesOf db u, p ∈ permissionsOf db r := by
  rw [List.mem_flatten]
  constructor
  · rintro ⟨s, hs, hp⟩
    rcases List.mem_map.mp hs with ⟨r, hr, rfl⟩
    exact ⟨r, hr, hp⟩
  · rintro ⟨r, hr, hp⟩
    exact ⟨permissionsOf db r, List.mem_map.mpr ⟨r, hr, rfl⟩, hp⟩

/-- Membership characterization of `get_permissions`, assuming primary-key
uniqueness of permission ids. -/
theorem mem_get_permissions {db : DB} {u : User}
    (hids : (db.permissions.map Permission.id).Nodup) (p : Permission) :
    p ∈ User.get_permissions db u ↔ ∃ r ∈ rolesOf db u, p ∈ permissionsOf db r := by
  unfold User.get_permissions
  constructor
  · intro h
    exact mem_flatperms.mp (dedupById_subset _ [] p h).1
  · intro h
    apply dedupById_mem _ [] p ?_ (mem_flatperms.mpr h) (by simp)
    intro a ha b hb hab
    have ha2 : a ∈ db.permissions := by
      rcases mem_flatperms.mp ha with ⟨r, _, hr⟩
      exact mem_of_mem_permissionsOf hr
    have hb2 : b ∈ db.permissions := by
      rcases mem_flatperms.mp hb with ⟨r, _, hr⟩
      exact mem_of_mem_permissionsOf hr
    exact perm_id_inj hids ha2 hb2 hab

/-- Intended behaviour behind claim C1, under the repaired wiring the
spec and the tests assume: with primary-key uniqueness of permission ids,
`get_permissions` returns each permission at most once (deduplicated by
id), and a permission is in the result exactly when it is attached to at
least one role the user holds — the union over the user's roles, with
nothing granted outside them.  The staged program instead raises: see
`get_permissions_raises`. -/
theorem effective_permissions_union (db : DB) (u : User)
    (hids : (db.permissions.map Permission.id).Nodup) :
    ((User.get_permissions db u).map Permission.id).Nodup ∧
    ∀ p : Permission,
      p ∈ User.get_permissions db u ↔ ∃ r ∈ rolesOf db u, p ∈ permissionsOf db r :=
  ⟨dedupById_nodup _ [], fun p => mem_get_permissions hids p⟩

/-- Instantiation of the intended C1 behaviour at the sample database. -/
theorem effective_permissions_union_witness :
    (sampleDB.permissions.map Permission.id).Nodup ∧
    ((User.get_permissions sampleDB alice).map Permission.id).Nodup :=
  ⟨by decide, (effective_permissions_union sampleDB alice (by decide)).1⟩

/-- Claim C2: in the staged program, an unauthenticated caller of either
gate always receives 401 — produced before any capability or database
access, so never 403, whatever the required capability — with the state
unchanged; and on the authenticated path the staged program raises from
mapper configuration before the wrapped view, so the view runs on no
failure path. -/
theorem gate_unauthenticated_first {σ α : Type} (db : DB)
    (perm_names role_names : List String) (u : User) (f : σ → σ × α) (s : σ) :
    (permission_required_staged db perm_names false u f s
        = OrmOutcome.result (s, GateResult.unauthenticated) ∧
     role_required_staged db role_names false u f s
        = OrmOutcome.result (s, GateResult.unauthenticated)) ∧
    (permission_required_staged db perm_names true u f s = OrmOutcome.raised ∧
     role_required_staged db role_names true u f s = OrmOutcome.raised) :=
  ⟨⟨rfl, rfl⟩, rfl, rfl⟩

/-- Witness for C2: a caller without the required permission gets 401 when
unauthenticated, with the view never reached. -/
theorem gate_unauthenticated_first_witness :
    permission_required_staged sampleDB ["no such permission"] false alice
      (fun (n : Nat) => (n + 1, true)) 0
      = OrmOutcome.result (0, GateResult.unauthenticated) ∧
    permission_required_staged sampleDB ["no such permission"] true alice
      (fun (n : Nat) => (n + 1, true)) 0 = OrmOutcome.raised :=
  ⟨(gate_unauthenticated_first sampleDB ["no such permission"] ["no such permission"]
      alice (fun (n : Nat) => (n + 1, true)) 0).1.1,
   (gate_unauthenticated_first sampleDB ["no such permission"] ["no such permission"]
      alice (fun (n : Nat) => (n + 1, true)) 0).2.1⟩

/-- Intended behaviour behind claim C8, under the repaired wiring:
deleting a role removes every membership pair and every grant pair
referencing it, users and permissions survive, and afterwards the role's
id appears in no user's role list and no permission's role list.  The
staged deletion never executes: see `delete_role_raises`. -/
theorem delete_role_cascade (db : DB) (r : Role) :
    (deleteRole db r).users = db.users ∧
    (deleteRole db r).permissions = db.permissions ∧
    (∀ pr ∈ (deleteRole db r).userRoles, pr.2 ≠ r.id) ∧
    (∀ pr ∈ (deleteRole db r).rolePerms, pr.1 ≠ r.id) ∧
    (∀ u : User, ∀ r2 ∈ rolesOf (deleteRole db r) u, r2.id ≠ r.id) ∧
    (∀ p : Permission, ∀ r2 ∈ rolesOfPermission (deleteRole db r) p, r2.id ≠ r.id) := by
  refine ⟨rfl, rfl, ?_, ?_, ?_, ?_⟩
  · intro pr hpr
    simpa using List.of_mem_filter hpr
  · intro pr hpr
    simpa using List.of_mem_filter hpr
  · intro u2 r2 hr2
    simpa using List.of_mem_filter (List.mem_of_mem_filter hr2)
  · intro p r2 hr2
    simpa using List.of_mem_filter (List.mem_of_mem_filter hr2)

/-- Instantiation of the intended C8 behaviour at the sample database. -/
theorem delete_role_cascade_witness :
    (deleteRole sampleDB roleAdmin).users = sampleDB.users ∧
    (deleteRole sampleDB roleAdmin).permissions = sampleDB.permissions :=
  ⟨(delete_role_cascade sampleDB roleAdmin).1,
   (delete_role_cascade sampleDB roleAdmin).2.1⟩

/-- Intended behaviour behind claim C9, under the repaired wiring: the
all-of checks are vacuously true on an empty list of names, for every
user.  The staged checks raise even on empty input, since both touch
`user.roles` before the vacuous `all`: see `has_all_empty_input_raises`. -/
theorem has_all_empty_true (db : DB) (u : User) :
    User.has_all_roles db u [] = true ∧ User.has_all_permissions db u [] = true :=
  ⟨rfl, rfl⟩

/-- Instantiation of the intended C9 behaviour at the sample database. -/
theorem has_all_empty_true_witness :
    User.has_all_roles sampleDB alice [] = true ∧
    User.has_all_permissions sampleDB alice [] = true :=
  has_all_empty_true sampleDB alice

/-- Intended behaviour behind claim C10, under the repaired wiring: the
any-of checks are false on an empty list of names for every user, so an
authenticated caller against an empty-list gate is refused with 403.  The
staged checks raise instead: see `has_any_empty_input_raises`. -/
theorem has_any_empty_false {σ α : Type} (db : DB) (u : User) (f : σ → σ × α) (s : σ) :
    User.has_any_role db u [] = false ∧ User.has_any_permission db u [] = false ∧
    permission_required db [] true u f s = (s, GateResult.forbidden) ∧
    role_required db [] true u f s = (s, GateResult.forbidden) := by
  have h1 : User.has_any_role db u [] = false := by
    simp [User.has_any_role]
  have h2 : User.has_any_permission db u [] = false := by
    simp [User.has_any_permission]
  exact ⟨h1, h2, by simp [permission_required, h2], by simp [role_required, h1]⟩

/-- Instantiation of the intended C10 behaviour at the sample database,
whose user holds every role and every permission. -/
theorem has_any_empty_false_witness :
    User.has_any_role sampleDB alice [] = false ∧
    permission_required sampleDB [] true alice (fun (n : Nat) => (n + 1, true)) 0
      = (0, GateResult.forbidden) :=
  ⟨(has_any_empty_false sampleDB alice (fun (n : Nat) => (n + 1, true)) 0).1,
   (has_any_empty_false sampleDB alice (fun (n : Nat) => (n + 1, true)) 0).2.2.1⟩

/-- Intended behaviour behind claim C3, under the repaired wiring:
`has_role` is true exactly when the requested name matches,
case-insensitively, the name of some role the user holds; in particular a
user holding a role stored as "Admin" passes the check for "Admin",
"admin" and "ADMIN" alike.  The staged check raises: see
`has_role_raises`. -/
theorem has_role_case_insensitive (db : DB) (u : User) (r : Role) :
    (∀ n, User.has_role db u n = true ↔
      ∃ r2 ∈ rolesOf db u, lowerKey r2.name = lowerKey n) ∧
    (r ∈ rolesOf db u → r.name = "Admin" →
      User.has_role db u "Admin" = true ∧ User.has_role db u "admin" = true ∧
      User.has_role db u "ADMIN" = true) := by
  have hiff : ∀ n, User.has_role db u n = true ↔
      ∃ r2 ∈ rolesOf db u, lowerKey r2.name = lowerKey n := by
    intro n
    simp [User.has_role, nameMatch, List.any_eq_true]
  refine ⟨hiff, fun hr hname => ⟨?_, ?_, ?_⟩⟩ <;>
    exact (hiff _).mpr ⟨r, hr, by rw [hname] <;> decide⟩

/-- Instantiation of the intended C3 behaviour at the sample database,
whose user holds the role stored as "Admin". -/
theorem has_role_case_insensitive_witness :
    User.has_role sampleDB alice "Admin" = true ∧
    User.has_role sampleDB alice "admin" = true ∧
    User.has_role sampleDB alice "ADMIN" = true :=
  (has_role_case_insensitive sampleDB alice roleAdmin).2 (by decide) rfl

/-- Intended behaviour behind claim C4, under the repaired wiring: on a
non-empty list of names, `has_any_role` is exactly the existential
closure of `has_role`.  The staged check raises: see
`has_any_role_raises`. -/
theorem has_any_role_existential (db : DB) (u : User) (ns : List String)
    (_hne : ns ≠ []) :
    User.has_any_role db u ns = true ↔ ∃ n ∈ ns, User.has_role db u n = true := by
  simp only [User.has_any_role, User.has_role, nameMatch, List.any_eq_true]
  constructor
  · rintro ⟨r, hr, hc⟩
    have hm : lowerKey r.name ∈ ns.map lowerKey := by
      simpa using hc
    rcases List.mem_map.mp hm with ⟨n, hn, he⟩
    exact ⟨n, hn, r, hr, by simp [he]⟩
  · rintro ⟨n, hn, r, hr, he⟩
    refine ⟨r, hr, ?_⟩
    have he2 : lowerKey r.name = lowerKey n := by simpa using he
    simpa using List.mem_map.mpr ⟨n, hn, he2.symm⟩

/-- Instantiation of the intended C4 behaviour at the sample database. -/
theorem has_any_role_existential_witness :
    (["admin", "nobody"] : List String) ≠ [] ∧
    (User.has_any_role sampleDB alice ["admin", "nobody"] = true ↔
      ∃ n ∈ (["admin", "nobody"] : List String),
        User.has_role sampleDB alice n = true) :=
  ⟨by decide, has_any_role_existential sampleDB alice ["admin", "nobody"] (by decide)⟩

/-- Intended behaviour behind claim C5, under the repaired wiring: with
primary-key uniqueness of permission ids, `has_permission` is true
exactly when the requested name matches, case-insensitively, the name of
some permission in the user's effective permission set.  The staged check
raises: see `has_permission_raises`. -/
theorem has_permission_effective (db : DB) (u : User) (n : String)
    (hids : (db.permissions.map Permission.id).Nodup) :
    User.has_permission db u n = true ↔
      ∃ p ∈ User.get_permissions db u, lowerKey p.name = lowerKey n := by
  have h1 : User.has_permission db u n = true ↔
      ∃ r ∈ rolesOf db u, ∃ p ∈ permissionsOf db r, lowerKey p.name = lowerKey n := by
    simp [User.has_permission, Role.has_permission, nameMatch, List.any_eq_true]
  rw [h1]
  constructor
  · rintro ⟨r, hr, p, hp, he⟩
    exact ⟨p, (mem_get_permissions hids p).mpr ⟨r, hr, hp⟩, he⟩
  · rintro ⟨p, hp, he⟩
    rcases (mem_get_permissions hids p).mp hp with ⟨r, hr, hp2⟩
    exact ⟨r, hr, p, hp2, he⟩

/-- Instantiation of the intended C5 behaviour at the sample database. -/
theorem has_permission_effective_witness :
    (sampleDB.permissions.map Permission.id).Nodup ∧
    (User.has_permission sampleDB alice "VIEW USERS" = true ↔
      ∃ p ∈ User.get_permissions sampleDB alice,
        lowerKey p.name = lowerKey "VIEW USERS") :=
  ⟨by decide, has_permission_effective sampleDB alice "VIEW USERS" (by decide)⟩

/-- Membership in a role's permission set after `sync_permissions`: a
permission row qualifies exactly when its id is among the ids of the
provided list. -/
theorem mem_permissionsOf_sync (db : DB) (r : Role) (ps : List Permission)
    (p : Permission) :
    p ∈ permissionsOf (Role.sync_permissions db r ps) r ↔
      p ∈ db.permissions ∧ p.id ∈ ps.map Permission.id := by
  simp only [permissionsOf, Role.sync_permissions, List.mem_filter]
  refine and_congr_right fun _ => ?_
  rw [show ((db.rolePerms.filter (fun pr => pr.1 != r.id) ++
      ps.map (fun q => (r.id, q.id))).contains (r.id, p.id) = true) ↔
      ((r.id, p.id) ∈ db.rolePerms.filter (fun pr => pr.1 != r.id) ++
        ps.map (fun q => (r.id, q.id))) from List.elem_iff]
  rw [List.mem_append]
  constructor
  · rintro (hl | hr2)
    · have := List.of_mem_filter hl
      simp at this
    · rcases List.mem_map.mp hr2 with ⟨q, hq, he⟩
      have : q.id = p.id := (Prod.mk.injEq _ _ _ _).mp he |>.2
      exact this ▸ List.mem_map.mpr ⟨q, hq, rfl⟩
  · intro hid
    rcases List.mem_map.mp hid with ⟨q, hq, he⟩
    exact Or.inr (List.mem_map.mpr ⟨q, hq, by rw [he]⟩)

/-- Intended behaviour behind claim C6, under the repaired wiring: after
`sync_permissions(r, newPerms)` the permission set of `r` is exactly the
set of provided permissions, whatever it was before; with the empty list
the role is left with no permissions at all.  The staged operation raises
before replacing anything: see `sync_permissions_raises`. -/
theorem sync_permissions_replace_all (db : DB) (r : Role) (ps : List Permission)
    (hsub : ∀ p ∈ ps, p ∈ db.permissions)
    (hids : (db.permissions.map Permission.id).Nodup) :
    (∀ p, p ∈ permissionsOf (Role.sync_permissions db r ps) r ↔ p ∈ ps) ∧
    permissionsOf (Role.sync_permissions db r []) r = [] := by
  constructor
  · intro p
    rw [mem_permissionsOf_sync]
    constructor
    · rintro ⟨hp, hid⟩
      rcases List.mem_map.mp hid with ⟨q, hq, he⟩
      have hqp : q = p := perm_id_inj hids (hsub q hq) hp he
      exact hqp ▸ hq
    · intro hp
      exact ⟨hsub p hp, List.mem_map.mpr ⟨p, hp, rfl⟩⟩
  · rw [List.eq_nil_iff_forall_not_mem]
    intro p hp
    rcases (mem_permissionsOf_sync db r [] p).mp hp with ⟨_, hid⟩
    simp at hid

/-- Instantiation of the intended C6 behaviour at the sample database:
replacing the Admin role's two permissions with the single "edit users"
permission. -/
theorem sync_permissions_replace_all_witness :
    (∀ p ∈ [permEditUsers], p ∈ sampleDB.permissions) ∧
    (∀ p, p ∈ permissionsOf (Role.sync_permissions sampleDB roleAdmin [permEditUsers])
        roleAdmin ↔ p ∈ [permEditUsers]) :=
  ⟨by decide,
   (sync_permissions_replace_all sampleDB roleAdmin [permEditUsers]
      (by decide) (by decide)).1⟩

/-- Intended behaviour behind claim C7, under the repaired wiring:
membership addition is idempotent — assigning a role twice leaves the
same state as assigning it once, and likewise granting a permission to a
role twice; the entities are assumed to be rows of their tables.  The
staged operations raise: see `assign_and_grant_raise`. -/
theorem membership_add_idempotent (db : DB) (u : User) (r : Role) (p : Permission)
    (hr : r ∈ db.roles) (hp : p ∈ db.permissions) :
    User.assign_role (User.assign_role db u r) u r = User.assign_role db u r ∧
    Role.give_permission_to (Role.give_permission_to db r p) r p
      = Role.give_permission_to db r p := by
  constructor
  · by_cases h : User.has_role db u r.name = true
    · simp [User.assign_role, h]
    · have h1 : User.assign_role db u r
          = { db with userRoles := db.userRoles ++ [(u.id, r.id)] } := by
        simp [User.assign_role, h]
      have h2 : User.has_role { db with userRoles := db.userRoles ++ [(u.id, r.id)] }
          u r.name = true := by
        rw [User.has_role, List.any_eq_true]
        refine ⟨r, ?_, nameMatch_refl _⟩
        rw [rolesOf, List.mem_filter]
        exact ⟨hr, by simp⟩
      rw [h1]
      simp [User.assign_role, h2]
  · by_cases h : Role.has_permission db r p.name = true
    · simp [Role.give_permission_to, h]
    · have h1 : Role.give_permission_to db r p
          = { db with rolePerms := db.rolePerms ++ [(r.id, p.id)] } := by
        simp [Role.give_permission_to, h]
      have h2 : Role.has_permission { db with rolePerms := db.rolePerms ++ [(r.id, p.id)] }
          r p.name = true := by
        rw [Role.has_permission, List.any_eq_true]
        refine ⟨p, ?_, nameMatch_refl _⟩
        rw [permissionsOf, List.mem_filter]
        exact ⟨hp, by simp⟩
      rw [h1]
      simp [Role.give_permission_to, h2]

/-- Instantiation of the intended C7 behaviour at the sample database. -/
theorem membership_add_idempotent_witness :
    User.assign_role (User.assign_role sampleDB alice roleAdmin) alice roleAdmin
      = User.assign_role sampleDB alice roleAdmin ∧
    Role.give_permission_to (Role.give_permission_to sampleDB roleAdmin permViewUsers)
        roleAdmin permViewUsers
      = Role.give_permission_to sampleDB roleAdmin permViewUsers :=
  membership_add_idempotent sampleDB alice roleAdmin permViewUsers (by decide) (by decide)

/-! What the staged program does at each claim's inputs: the undeclared
`user_has_roles` secondary fails mapper configuration, so each operation
raises `InvalidRequestError` instead of exhibiting the claimed
behaviour. -/

/-- Claim C1's failing input: `get_permissions` on a user holding roles
"Admin" and "Editor" raises instead of returning their deduplicated
permission union. -/
theorem get_permissions_raises :
    User.get_permissions_staged sampleDB alice = OrmOutcome.raised := by
  rfl

/-- Claim C3's failing input: `has_role` on a user holding the role
stored as "Admin" raises instead of matching "Admin" (or "admin", or
"ADMIN") case-insensitively. -/
theorem has_role_raises :
    User.has_role_staged sampleDB alice "Admin" = OrmOutcome.raised ∧
    User.has_role_staged sampleDB alice "admin" = OrmOutcome.raised ∧
    User.has_role_staged sampleDB alice "ADMIN" = OrmOutcome.raised := by
  exact ⟨rfl, rfl, rfl⟩

/-- Claim C4's failing input: `has_any_role` on a non-empty name list
raises instead of returning the existential closure of `has_role`. -/
theorem has_any_role_raises :
    User.has_any_role_staged sampleDB alice ["admin", "nobody"] = OrmOutcome.raised := by
  rfl

/-- Claim C5's failing input: `has_permission` raises instead of checking
the name against the user's effective permission set. -/
theorem has_permission_raises :
    User.has_permission_staged sampleDB alice "view users" = OrmOutcome.raised := by
  rfl

/-- Claim C6's failing input: `sync_permissions` raises before replacing
anything — `role.permissions` access fails under the registry-wide
configuration failure. -/
theorem sync_permissions_raises :
    Role.sync_permissions_staged sampleDB roleAdmin [permEditUsers] = OrmOutcome.raised := by
  rfl

/-- Claim C7's failing inputs: `assign_role` and `give_permission_to`
raise instead of performing an idempotent insertion. -/
theorem assign_and_grant_raise :
    User.assign_role_staged sampleDB alice roleAdmin = OrmOutcome.raised ∧
    Role.give_permission_to_staged sampleDB roleAdmin permViewUsers = OrmOutcome.raised := by
  exact ⟨rfl, rfl⟩

/-- Claim C8's failing input: the role deletion raises at
`db.session.get(Role, id)`, before any cascade can run. -/
theorem delete_role_raises :
    deleteRole_staged sampleDB roleAdmin = OrmOutcome.raised := by
  rfl

/-- Claim C9's failing input: even with an empty name list, both all-of
checks touch `user.roles` (the role-name set, respectively
`get_permissions`) before the vacuous `all`, so they raise instead of
returning true. -/
theorem has_all_empty_input_raises :
    User.has_all_roles_staged sampleDB alice [] = OrmOutcome.raised ∧
    User.has_all_permissions_staged sampleDB alice [] = OrmOutcome.raised := by
  exact ⟨rfl, rfl⟩

/-- Claim C10's failing input: even with an empty name list, both any-of
checks execute a query over `user.roles`, so they raise — an
authenticated caller at an empty-list gate gets the configuration error
(HTTP 500), not 403. -/
theorem has_any_empty_input_raises :
    User.has_any_role_staged sampleDB alice [] = OrmOutcome.raised ∧
    User.has_any_permission_staged sampleDB alice [] = OrmOutcome.raised ∧
    permission_required_staged sampleDB [] true alice
      (fun (n : Nat) => (n + 1, true)) 0 = OrmOutcome.raised := by
  exact ⟨rfl, rfl, rfl⟩

end FlaskStarter
